import Mathlib

/-!
Verification development for the Arijentek Core HR/payroll add-on.

The Python sources are shallowly embedded: dates are modelled by their
proleptic-Gregorian day number (the standard civil-days algorithm), SQL
NULL strings by the empty string (both are falsy in Python), rationals
stand for Python numbers, and database lookups become explicit fields of
the state structures.  Each definition mirrors one Python function of the
repository; the file and function are named in its doc comment.
-/

namespace Arijentek

/-! ## Calendar arithmetic

Python's standard library date functions used by the sources:
calendar.monthrange (days in month), date.weekday (Monday = 0, Sunday = 6)
and date ordering / day stepping.  A date is mapped to its day count since
1970-01-01 by the standard civil-from-date algorithm; the weekday follows
because 1970-01-01 was a Thursday (Python weekday 3). -/

/-- Day number of a Gregorian calendar date, counted from 1970-01-01. -/
def daysFromCivil (y m d : Int) : Int :=
  let y2 := if m ≤ 2 then y - 1 else y
  let era := Int.fdiv y2 400
  let yoe := y2 - era * 400
  let mp := if 2 < m then m - 3 else m + 9
  let doy := Int.fdiv (153 * mp + 2) 5 + d - 1
  let doe := yoe * 365 + Int.fdiv yoe 4 - Int.fdiv yoe 100 + doy
  era * 146097 + doe - 719468

/-- Python date.weekday for a day number: Monday = 0, ..., Sunday = 6. -/
def pyWeekdayOfDay (dn : Int) : Int := (dn + 3) % 7

/-- Python date.weekday of a calendar date. -/
def pyWeekday (y m d : Int) : Int := pyWeekdayOfDay (daysFromCivil y m d)

/-- Gregorian leap year test. -/
def isLeap (y : Int) : Bool := (y % 4 == 0 && y % 100 != 0) || (y % 400 == 0)

/-- Number of days in a month: calendar.monthrange(y, m)[1]. -/
def daysInMonth (y m : Int) : Int :=
  if m = 2 then (if isLeap y then 29 else 28)
  else if m = 4 ∨ m = 6 ∨ m = 9 ∨ m = 11 then 30
  else 31

/-- A Gregorian calendar date (a Python datetime.date). -/
structure Date where
  year : Int
  month : Int
  day : Int
deriving DecidableEq

/-- Day number of a Date; Python date comparison and day stepping are
comparison and stepping of this number. -/
def Date.toDay (d : Date) : Int := daysFromCivil d.year d.month d.day

/-! ## Payroll calculator state (payroll/calculator.py, PayrollCalculator)

The state after load_data: the pay period, the employee master fields read
by the calculator, the loaded holiday dates, the submitted attendance rows
of the period, and the names of the leave types with is_lwp = 1. -/

/-- One row of the attendance query in PayrollCalculator._load_attendance
(status and leave_type; the empty string models SQL NULL). -/
structure AttRow where
  status : String
  leave_type : String
deriving DecidableEq

/-- State of a PayrollCalculator after load_data. -/
structure PCState where
  start_date : Date
  end_date : Date
  date_of_joining : Option Date
  relieving_date : Option Date
  holidays : List Date
  attendance_data : List AttRow
  lop_leave_types : List String
deriving DecidableEq

/-- Number of Sundays in a month: the generator-sum over range(total_days)
in PayrollCalculator._calculate_working_days. -/
def sundaysInMonth (y m : Int) : Int :=
  (((List.range (daysInMonth y m).toNat).filter
    (fun i => pyWeekday y m ((i : Int) + 1) == 6)).length : Int)

/-- working_days of _calculate_working_days: days in the start month minus
Sundays in that month minus the count of loaded holidays. -/
def calcWorkingDays (s : PCState) : Int :=
  daysInMonth s.start_date.year s.start_date.month
    - sundaysInMonth s.start_date.year s.start_date.month
    - (s.holidays.length : Int)

/-- Accumulator of the attendance loop of _calculate_working_days. -/
structure AttTotals where
  present_days : Int
  half_days : Int
  lop_days : ℚ
  paid_leave_days : Int
deriving DecidableEq

/-- One iteration of the attendance loop of _calculate_working_days.
The Python truthiness test on att.leave_type is the inequality with the
empty string. -/
def attStep (lop_types : List String) (t : AttTotals) (att : AttRow) : AttTotals :=
  if att.status = "Present" then
    { t with present_days := t.present_days + 1 }
  else if att.status = "Half Day" then
    let t2 := { t with half_days := t.half_days + 1 }
    if att.leave_type ≠ "" ∧ att.leave_type ∈ lop_types then
      { t2 with lop_days := t2.lop_days + 1/2 }
    else t2
  else if att.status = "On Leave" then
    if att.leave_type ≠ "" ∧ att.leave_type ∈ lop_types then
      { t with lop_days := t.lop_days + 1 }
    else
      { t with paid_leave_days := t.paid_leave_days + 1 }
  else if att.status = "Absent" then
    { t with lop_days := t.lop_days + 1 }
  else t

/-- The attendance totals of _calculate_working_days. -/
def attTotals (lop_types : List String) (rows : List AttRow) : AttTotals :=
  rows.foldl (attStep lop_types) ⟨0, 0, 0, 0⟩

/-- lop_days field of the calculator after load_data. -/
def calcLopDays (s : PCState) : ℚ :=
  (attTotals s.lop_leave_types s.attendance_data).lop_days

/-- PayrollCalculator._is_holiday_or_weekend on a day number: Sunday or a
loaded holiday date (string comparison of dates is date equality). -/
def isHolidayOrWeekend (holidays : List Date) (dn : Int) : Bool :=
  pyWeekdayOfDay dn == 6 || (holidays.map Date.toDay).contains dn

/-- The day-stepping while loops of _calculate_inactive_days: count the
days dn with lo ≤ dn < hi that are not holidays or weekends. -/
def countNonHolidayDays (holidays : List Date) (lo hi : Int) : Int :=
  (((List.range (hi - lo).toNat).filter
    (fun i => !(isHolidayOrWeekend holidays (lo + (i : Int))))).length : Int)

/-- PayrollCalculator._calculate_inactive_days.  The whole body is guarded
by the truthiness of date_of_joining and by date_of_joining > start_date;
working_days is the already-computed self.working_days. -/
def calcInactiveDays (s : PCState) (working_days : Int) : Int :=
  match s.date_of_joining with
  | none => 0
  | some joining_date =>
    if s.start_date.toDay < joining_date.toDay then
      let relieving_day : Int :=
        match s.relieving_date with
        | some r => r.toDay
        | none => s.end_date.toDay
      let active_start := max s.start_date.toDay joining_date.toDay
      let active_end := min s.end_date.toDay relieving_day
      if active_end < active_start then working_days
      else
        (if s.start_date.toDay < active_start then
          countNonHolidayDays s.holidays s.start_date.toDay active_start
        else 0)
        + (if active_end < s.end_date.toDay then
          countNonHolidayDays s.holidays (active_end + 1) (s.end_date.toDay + 1)
        else 0)
    else 0

/-- PayrollCalculator.get_payment_days:
max(0, working_days - lop_days - inactive_days). -/
def getPaymentDays (s : PCState) : ℚ :=
  let wd := calcWorkingDays s
  max 0 ((wd : ℚ) - calcLopDays s - (calcInactiveDays s wd : ℚ))

/-! ## get_lop_summary (payroll/calculator.py)

The SQL query groups the submitted attendance rows of the period by
(status, leave_type) and returns a count per group; the function then
folds over the groups.  The grouping is modelled explicitly from the same
row list the calculator sees. -/

/-- Grouping key of a row. -/
def attKey (r : AttRow) : String × String := (r.status, r.leave_type)

/-- The distinct (status, leave_type) keys of the GROUP BY. -/
def attGroupKeys (rows : List AttRow) : List (String × String) :=
  (rows.map attKey).dedup

/-- COUNT(*) of one group. -/
def attGroupCount (rows : List AttRow) (k : String × String) : Nat :=
  rows.countP (fun r => attKey r = k)

/-- One iteration of the loop of get_lop_summary over a grouped row
(first component: lop_days, second: half_day_lop).  Note the membership
test here has no truthiness guard on leave_type, unlike the calculator. -/
def lopSummaryStep (lop_types : List String)
    (acc : ℚ × ℚ) (g : (String × String) × Nat) : ℚ × ℚ :=
  let status := g.1.1
  let lt := g.1.2
  let count := g.2
  if status = "Absent" then (acc.1 + count, acc.2)
  else if status = "On Leave" ∧ lt ∈ lop_types then (acc.1 + count, acc.2)
  else if status = "Half Day" then
    if lt ∈ lop_types then (acc.1 + (1/2) * count, acc.2 + count) else acc
  else acc

/-- get_lop_summary restricted to its two accumulators
(lop_days, half_day_lop); total_lop_equivalent equals lop_days. -/
def getLopSummary (lop_types : List String) (rows : List AttRow) : ℚ × ℚ :=
  ((attGroupKeys rows).map (fun k => (k, attGroupCount rows k))).foldl
    (lopSummaryStep lop_types) (0, 0)

/-- LOP contribution of one grouped key per get_lop_summary. -/
def lopKeyWeight (lop_types : List String) (k : String × String) : ℚ :=
  if k.1 = "Absent" then 1
  else if k.1 = "On Leave" ∧ k.2 ∈ lop_types then 1
  else if k.1 = "Half Day" ∧ k.2 ∈ lop_types then 1/2
  else 0

/-- LOP contribution of one attendance row per _calculate_working_days
(with the truthiness guard on leave_type). -/
def lopRowWeight (lop_types : List String) (r : AttRow) : ℚ :=
  if r.status = "Absent" then 1
  else if r.status = "On Leave" ∧ r.leave_type ≠ "" ∧ r.leave_type ∈ lop_types then 1
  else if r.status = "Half Day" ∧ r.leave_type ≠ "" ∧ r.leave_type ∈ lop_types then 1/2
  else 0

/-! ## Attendance status and checkin pairing (attendance/sync.py) -/

/-- determine_attendance_status (attendance/sync.py).  The database facts
read by the function are parameters: has_half_day_leave is the existence
of an approved, submitted (docstatus = 1) half-day Leave Application whose
from_date..to_date covers the date; default_shift is the Employee field
(empty string for none).  With a shift assigned the shift document is
loaded but only the same strict thresholds are applied. -/
def determineAttendanceStatus (has_half_day_leave : Bool)
    (default_shift : String) (working_hours : ℚ) : String :=
  if default_shift = "" then
    if has_half_day_leave then "Half Day"
    else if working_hours ≥ 8 then "Present"
    else if working_hours ≥ 4 then "Half Day"
    else "Absent"
  else
    if working_hours ≥ 8 then "Present"
    else if working_hours ≥ 4 then "Half Day"
    else "Absent"

/-- An Employee Checkin log; time is the timestamp in seconds, so that
Python timedelta.total_seconds() is plain subtraction. -/
structure Checkin where
  log_type : String
  time : ℚ
deriving DecidableEq

/-- Python min(logs, key=time): first element of least time. -/
def minByTime (c : Checkin) (cs : List Checkin) : Checkin :=
  cs.foldl (fun a b => if b.time < a.time then b else a) c

/-- Python max(logs, key=time): first element of greatest time. -/
def maxByTime (c : Checkin) (cs : List Checkin) : Checkin :=
  cs.foldl (fun a b => if a.time < b.time then b else a) c

/-- Python round to nearest integer, ties to even, on exact rationals. -/
def roundHalfEven (x : ℚ) : Int :=
  let f := ⌊x⌋
  let frac := x - (f : ℚ)
  if frac < 1/2 then f
  else if 1/2 < frac then f + 1
  else if f % 2 = 0 then f else f + 1

/-- Python round(x, 2) on exact rationals. -/
def pyRound2 (x : ℚ) : ℚ := (roundHalfEven (x * 100) : ℚ) / 100

/-- The attendance_data dictionary built by create_or_update_attendance
(the fields that depend on the checkins). -/
structure AttendanceData where
  status : String
  working_hours : ℚ
  in_time : ℚ
  out_time : Option ℚ
deriving DecidableEq

/-- The pure computation of create_or_update_attendance (attendance/sync.py
lines 61-86): split the checkins by log_type, return None when there is no
IN log, otherwise pair the earliest IN with the latest OUT.  The status is
computed from the unrounded hours; the stored working_hours is rounded to
two decimals. -/
def computeAttendanceData (has_half_day_leave : Bool) (default_shift : String)
    (checkins : List Checkin) : Option AttendanceData :=
  let in_logs := checkins.filter (fun c => c.log_type == "IN")
  let out_logs := checkins.filter (fun c => c.log_type == "OUT")
  match in_logs with
  | [] => none
  | c :: rest =>
    let first_in := minByTime c rest
    let last_out : Option Checkin :=
      match out_logs with
      | [] => none
      | o :: orest => some (maxByTime o orest)
    let working_hours : ℚ :=
      match last_out with
      | some lo => (lo.time - first_in.time) / 3600
      | none => 0
    some { status := determineAttendanceStatus has_half_day_leave default_shift working_hours,
           working_hours := pyRound2 working_hours,
           in_time := first_in.time,
           out_time := last_out.map Checkin.time }

/-! ## Attendance persistence (attendance/sync.py lines 88-122)

The Attendance records of one (employee, attendance_date) pair, in
creation order; docstatus 0 is draft, 1 submitted, 2 cancelled.  The
function looks up the first record with docstatus different from 2
(frappe.db.exists with a docstatus filter), cancels and replaces it when
it is submitted, updates and submits it when it is a draft, and otherwise
inserts and submits a new record. -/

/-- A stored Attendance record. -/
structure AttRecord where
  docstatus : Nat
  data : AttendanceData
deriving DecidableEq

/-- The write phase of create_or_update_attendance, applied to the records
of the (employee, date) pair:  acting on the first non-cancelled record
(the existing lookup), mirroring the docstatus case split of the source;
new records are inserted at the end and submitted. -/
def applyAttendance (ad : AttendanceData) : List AttRecord → List AttRecord
  | [] => [⟨1, ad⟩]
  | r :: rest =>
    if r.docstatus ≠ 2 then
      if r.docstatus = 1 then
        ({ r with docstatus := 2 } :: rest) ++ [⟨1, ad⟩]
      else
        ⟨1, ad⟩ :: rest
    else r :: applyAttendance ad rest

/-- create_or_update_attendance as a transition on the record list:
None (and no write) when the checkins contain no IN log, otherwise the
updated record list. -/
def createOrUpdateAttendance (has_half_day_leave : Bool) (default_shift : String)
    (checkins : List Checkin) (recs : List AttRecord) : Option (List AttRecord) :=
  (computeAttendanceData has_half_day_leave default_shift checkins).map
    (fun ad => applyAttendance ad recs)

/-- Number of non-cancelled records of the pair. -/
def liveCount (recs : List AttRecord) : Nat :=
  (recs.filter (fun r => r.docstatus != 2)).length

/-! ## The punch endpoint (api/v1/attendance.py) -/

/-- punch (api/v1/attendance.py) as a transition on the list of the
employee's checkins of the current day, given the punch timestamp in
seconds.  Errors are the messages of frappe.throw; on success the new
checkin list and the recorded log_type are returned.  The earliest IN is
taken because the query orders by time ascending and next() takes the
first IN. -/
def punch (st : List Checkin) (ts : ℚ) : Except String (List Checkin × String) :=
  if st.any (fun c => c.log_type == "IN") && st.any (fun c => c.log_type == "OUT") then
    Except.error "You have already clocked in and out today"
  else if !(st.any (fun c => c.log_type == "IN")) then
    Except.ok (st ++ [⟨"IN", ts⟩], "IN")
  else
    match (st.filter (fun c => c.log_type == "IN")) with
    | [] => Except.error "Invalid state"
    | c :: rest =>
      if (ts - (minByTime c rest).time) / 3600 > 12 then
        Except.error "Shift exceeded 12 hours. Please contact HR."
      else
        Except.ok (st ++ [⟨"OUT", ts⟩], "OUT")

/-- Count of IN logs in the day state. -/
def countIn (st : List Checkin) : Nat := st.countP (fun c => c.log_type == "IN")

/-- Count of OUT logs in the day state. -/
def countOut (st : List Checkin) : Nat := st.countP (fun c => c.log_type == "OUT")

/-! ## Salary components and deductions (payroll/calculator.py)

A salary component formula is executed by frappe.safe_eval over a context
of payroll variables; it is modelled as a total function of that context
(an evaluation error, which the source logs and turns into 0, is a
function returning 0). -/

/-- The variable context of PayrollCalculator._evaluate_formula. -/
structure FormulaCtx where
  base : ℚ
  gross_pay : ℚ
  payment_days : ℚ
  working_days : ℚ
  lop_days : ℚ

/-- A row of the earnings or deductions table of the Salary Structure,
together with the Salary Component default amount the source would fetch
as a fallback.  amount 0 models a null amount (Python falsiness). -/
structure SalaryComponentRow where
  salary_component : String
  abbr : String
  amount : ℚ
  formula : Option (FormulaCtx → ℚ)
  default_amount : ℚ
  depends_on_payment_days : Bool

/-- The payroll state read by the earning and deduction calculations:
the assignment base, the computed working and LOP days, and the salary
structure tables. -/
structure PayState where
  base : ℚ
  working_days : Int
  lop_days : ℚ
  earnings : List SalaryComponentRow
  deductions : List SalaryComponentRow

/-- PayrollCalculator._evaluate_formula: evaluate and round to 2 places. -/
def evaluateFormula (f : FormulaCtx → ℚ) (ctx : FormulaCtx) : ℚ :=
  pyRound2 (f ctx)

/-- PayrollCalculator._calculate_component_amount. -/
def calcComponentAmount (st : PayState) (c : SalaryComponentRow)
    (payment_days gross_pay : ℚ) : ℚ :=
  let ctx : FormulaCtx :=
    ⟨st.base, gross_pay, payment_days, (st.working_days : ℚ), st.lop_days⟩
  let amount :=
    if c.amount ≠ 0 then c.amount
    else
      match c.formula with
      | some f => evaluateFormula f ctx
      | none => c.default_amount
  let amount :=
    if c.depends_on_payment_days ∧ 0 < st.working_days then
      amount / (st.working_days : ℚ) * payment_days
    else amount
  pyRound2 amount

/-- One entry of the earnings or deductions list the calculator returns. -/
structure LineItem where
  salary_component : String
  abbr : String
  amount : ℚ
  type : String
deriving DecidableEq

/-- PayrollCalculator.calculate_earnings: one line per structure earning
with positive computed amount. -/
def calculateEarnings (st : PayState) (payment_days : ℚ) : List LineItem :=
  st.earnings.filterMap (fun e =>
    let a := calcComponentAmount st e payment_days 0
    if 0 < a then some ⟨e.salary_component, e.abbr, a, "Earning"⟩ else none)

/-- PayrollCalculator._get_gross_pay_for_deductions. -/
def grossPayForDeductions (st : PayState) (payment_days : ℚ) : ℚ :=
  ((calculateEarnings st payment_days).map LineItem.amount).sum

/-- PayrollCalculator.calculate_deductions.  The source builds the list
from the salary structure deductions only: the statutory-deduction call
that followed is commented out (calculator.py lines 260-264, disabled to
prevent duplication and unwanted PF and ESI). -/
def calculateDeductions (st : PayState) (payment_days : ℚ) : List LineItem :=
  let gross := grossPayForDeductions st payment_days
  st.deductions.filterMap (fun d =>
    let a := calcComponentAmount st d payment_days gross
    if 0 < a then some ⟨d.salary_component, d.abbr, a, "Deduction"⟩ else none)

/-- The database configuration read by the statutory deduction helpers:
the configured PT, PF and ESI Salary Components (name, abbreviation and,
for PT, amount), the employee applicability flags (None falls back to the
documented defaults) and the configured PF rate (12 when unset). -/
structure StatutoryCtx where
  pt_component : Option (String × String × ℚ)
  pf_component : Option (String × String)
  esi_component : Option (String × String)
  pf_applicable : Option Bool
  esi_applicable : Option Bool
  pf_rate : ℚ

/-- PayrollCalculator._get_pt_amount_by_state: the default PT slabs. -/
def getPTAmountByState (gross_pay : ℚ) : ℚ :=
  if gross_pay ≤ 15000 then 0
  else if gross_pay ≤ 25000 then 150
  else 200

/-- PayrollCalculator._calculate_professional_tax. -/
def calcProfessionalTax (ctx : StatutoryCtx) (gross_pay : ℚ) : Option LineItem :=
  match ctx.pt_component with
  | none =>
    let pt_amount := getPTAmountByState gross_pay
    if 0 < pt_amount then some ⟨"Professional Tax", "PT", pt_amount, "Deduction"⟩
    else none
  | some (nm, ab, amt) =>
    let pt_amount := if amt ≠ 0 then amt else getPTAmountByState gross_pay
    if 0 < pt_amount then some ⟨nm, ab, pt_amount, "Deduction"⟩
    else none

/-- PayrollCalculator._is_pf_applicable (default applicable). -/
def isPFApplicable (ctx : StatutoryCtx) : Bool := ctx.pf_applicable.getD true

/-- PayrollCalculator._is_esi_applicable (default not applicable). -/
def isESIApplicable (ctx : StatutoryCtx) : Bool := ctx.esi_applicable.getD false

/-- PayrollCalculator._get_basic_salary: the first Basic earning with an
amount or a formula decides; otherwise the assignment base.  The formula
is evaluated with gross_pay 0 and payment_days = working_days. -/
def getBasicSalary (st : PayState) : ℚ :=
  match st.earnings.findSome? (fun e =>
    if e.salary_component == "Basic" || e.abbr == "B" then
      if e.amount ≠ 0 then some e.amount
      else
        match e.formula with
        | some f =>
          some (evaluateFormula f
            ⟨st.base, 0, (st.working_days : ℚ), (st.working_days : ℚ), st.lop_days⟩)
        | none => none
    else none) with
  | some v => v
  | none => st.base

/-- PayrollCalculator._calculate_provident_fund. -/
def calcProvidentFund (st : PayState) (ctx : StatutoryCtx)
    (gross_pay : ℚ) : Option LineItem :=
  if !(isPFApplicable ctx) then none
  else
    let basic := getBasicSalary st
    if basic ≤ 0 then none
    else
      let pf_amount := basic * (ctx.pf_rate / 100)
      let nm := match ctx.pf_component with | some p => p.1 | none => "Provident Fund"
      let ab := match ctx.pf_component with | some p => p.2 | none => "PF"
      some ⟨nm, ab, pyRound2 pf_amount, "Deduction"⟩

/-- PayrollCalculator._calculate_esi: 0.75 percent of gross pay when the
gross pay is at most the 21000 ceiling and ESI is applicable. -/
def calcESI (ctx : StatutoryCtx) (gross_pay : ℚ) : Option LineItem :=
  if gross_pay > 21000 then none
  else if !(isESIApplicable ctx) then none
  else
    let esi_amount := gross_pay * ((3/4) / 100)
    let nm := match ctx.esi_component with | some p => p.1 | none => "ESI"
    let ab := match ctx.esi_component with | some p => p.2 | none => "ESI"
    some ⟨nm, ab, pyRound2 esi_amount, "Deduction"⟩

/-- PayrollCalculator._calculate_statutory_deductions: PT, then PF, then
ESI, each included when its helper returns an entry. -/
def calcStatutoryDeductions (st : PayState) (ctx : StatutoryCtx)
    (gross_pay : ℚ) : List LineItem :=
  [calcProfessionalTax ctx gross_pay,
   calcProvidentFund st ctx gross_pay,
   calcESI ctx gross_pay].reduceOption

/-! ## Endpoint error envelopes (api.py and attendance/sync.py)

Each whitelisted endpoint wraps its body in try/except.  The body is
modelled as an Except value: ok carries the response the body would
return, error carries str(e) of the raised exception. -/

/-- A JSON-ish response value (the sources return strings and booleans in
the fields the claims mention). -/
inductive RVal where
  | s (v : String)
  | b (v : Bool)
deriving DecidableEq

/-- A response dictionary, as an ordered key-value list. -/
def ApiResponse := List (String × RVal)

instance : DecidableEq ApiResponse := by
  unfold ApiResponse
  infer_instance

/-- The try/except shape of the api.py endpoints: on exception return a
dictionary with success False and the error string. -/
def tryExceptSuccessError (body : Except String ApiResponse) : ApiResponse :=
  match body with
  | Except.ok r => r
  | Except.error e => [("success", RVal.b false), ("error", RVal.s e)]

/-- The try/except shape of the sync endpoints (attendance/sync.py): on
exception return a dictionary with status error and the message string. -/
def tryExceptStatusMessage (body : Except String ApiResponse) : ApiResponse :=
  match body with
  | Except.ok r => r
  | Except.error e => [("status", RVal.s "error"), ("message", RVal.s e)]

/-- api.py clock_in, exception envelope. -/
def clockInHandler : Except String ApiResponse → ApiResponse := tryExceptSuccessError

/-- api.py clock_out, exception envelope. -/
def clockOutHandler : Except String ApiResponse → ApiResponse := tryExceptSuccessError

/-- api.py apply_leave, exception envelope. -/
def applyLeaveHandler : Except String ApiResponse → ApiResponse := tryExceptSuccessError

/-- api.py cancel_leave, exception envelope. -/
def cancelLeaveHandler : Except String ApiResponse → ApiResponse := tryExceptSuccessError

/-- api.py create_issue, exception envelope. -/
def createIssueHandler : Except String ApiResponse → ApiResponse := tryExceptSuccessError

/-- attendance/sync.py sync_today_attendance, exception envelope. -/
def syncTodayAttendanceHandler : Except String ApiResponse → ApiResponse :=
  tryExceptStatusMessage

/-- attendance/sync.py sync_date_range, exception envelope. -/
def syncDateRangeHandler : Except String ApiResponse → ApiResponse :=
  tryExceptStatusMessage

/-! ## Attendance CSV import (attendance/upload.py)

_import_attendance_rows processes the data rows inside one database
transaction.  Per row, check_record and import_doc either succeed (the
row's change is applied to the open transaction and a message appended),
raise AttributeError (silently skipped by the bare pass), or raise
another exception (error flag set, an error message appended).  After the
loop the transaction is rolled back when the error flag is set and
committed otherwise. -/

/-- Outcome of check_record plus import_doc on one data row. -/
inductive RowResult where
  | ok (change : String)
  | attrError
  | failure (msg : String)
deriving DecidableEq

/-- A row outcome of the generic exception branch. -/
def RowResult.isFailure : RowResult → Bool
  | RowResult.failure _ => true
  | _ => false

/-- Loop accumulator: changes applied to the open transaction, the ret
message list, and the error flag. -/
structure ImportAcc where
  pending : List String
  messages : List String
  error : Bool
deriving DecidableEq

/-- One iteration of the row loop of _import_attendance_rows. -/
def importStep (acc : ImportAcc) (r : RowResult) : ImportAcc :=
  match r with
  | RowResult.ok change =>
    { acc with pending := acc.pending ++ [change], messages := acc.messages ++ [change] }
  | RowResult.attrError => acc
  | RowResult.failure msg =>
    { acc with messages := acc.messages ++ [msg], error := true }

/-- Result of _import_attendance_rows: the persisted database after the
final rollback or commit, and the returned messages and error flag. -/
structure ImportOutcome where
  db : List String
  messages : List String
  error : Bool
deriving DecidableEq

/-- _import_attendance_rows over the persisted database db: run the row
loop in a transaction, roll back on the error flag, commit otherwise. -/
def importAttendanceRows (db : List String) (rows : List RowResult) : ImportOutcome :=
  let acc := rows.foldl importStep ⟨[], [], false⟩
  if acc.error then ⟨db, acc.messages, true⟩
  else ⟨db ++ acc.pending, acc.messages, false⟩

/-- A concrete loaded payroll state: base 30000, a 30-day working month,
one fixed Basic earning of 30000 and no structure deductions. -/
def exPayState : PayState :=
  { base := 30000, working_days := 30, lop_days := 0,
    earnings := [⟨"Basic", "B", 30000, none, 0, false⟩],
    deductions := [] }

/-- A concrete statutory configuration: no configured PT, PF or ESI
components, PF not applicable, ESI flag unset, PF rate 12. -/
def exStatutoryCtx : StatutoryCtx :=
  { pt_component := none, pf_component := none, esi_component := none,
    pf_applicable := some false, esi_applicable := none, pf_rate := 12 }

/-- A second concrete statutory configuration: nothing configured, both
applicability flags left to their defaults, PF rate 12. -/
def exStatutoryCtxDefaults : StatutoryCtx :=
  { pt_component := none, pf_component := none, esi_component := none,
    pf_applicable := none, esi_applicable := none, pf_rate := 12 }

/-- The changes of the rows that import successfully, in order. -/
def okChanges (rows : List RowResult) : List String :=
  rows.filterMap (fun r =>
    match r with
    | RowResult.ok c => some c
    | _ => none)

/-- A concrete payroll state for the mid-month relieving scenario:
June 2024 period, joined 2024-01-01, relieved 2024-06-15. -/
def exRelievedState : PCState :=
  { start_date := ⟨2024, 6, 1⟩, end_date := ⟨2024, 6, 30⟩,
    date_of_joining := some ⟨2024, 1, 1⟩,
    relieving_date := some ⟨2024, 6, 15⟩,
    holidays := [], attendance_data := [], lop_leave_types := [] }

/-! ## Theorems -/

/-- C1: after load_data, get_payment_days returns
max(0, working_days - lop_days - inactive_days) with working_days the
days of the start month minus its Sundays minus the loaded holidays, and
the result is never negative. -/
theorem payment_days_formula_and_nonneg (s : PCState) :
    getPaymentDays s =
      max 0 (((daysInMonth s.start_date.year s.start_date.month
          - sundaysInMonth s.start_date.year s.start_date.month
          - (s.holidays.length : Int) : Int) : ℚ)
        - calcLopDays s
        - (calcInactiveDays s (calcWorkingDays s) : ℚ))
    ∧ 0 ≤ getPaymentDays s :=
  ⟨rfl, le_max_left 0 _⟩

/-- C2: determine_attendance_status applies the strict thresholds
(Present at 8 or more hours, Half Day at 4 to 8, Absent below 4), except
that with no default shift and an approved submitted half-day leave
covering the date it returns Half Day regardless of hours. -/
theorem determine_attendance_status_spec (leave : Bool) (shift : String) (wh : ℚ) :
    determineAttendanceStatus leave shift wh =
      if shift = "" ∧ leave = true then "Half Day"
      else if 8 ≤ wh then "Present"
      else if 4 ≤ wh then "Half Day"
      else "Absent" := by
  unfold determineAttendanceStatus
  by_cases hs : shift = "" <;> by_cases hl : leave = true <;>
    simp [hs, hl, ge_iff_le]

/-- C10: when the employee joined on or before the period start,
_calculate_inactive_days returns 0 even when the relieving date falls
inside the period, so get_payment_days subtracts no inactive days. -/
theorem inactive_days_zero_when_joined_before_start (s : PCState) (j : Date)
    (h1 : s.date_of_joining = some j) (h2 : j.toDay ≤ s.start_date.toDay) :
    calcInactiveDays s (calcWorkingDays s) = 0
    ∧ getPaymentDays s = max 0 ((calcWorkingDays s : ℚ) - calcLopDays s) := by
  have hz : calcInactiveDays s (calcWorkingDays s) = 0 := by
    unfold calcInactiveDays
    rw [h1]
    simp [not_lt.mpr h2]
  refine ⟨hz, ?_⟩
  show max 0 ((calcWorkingDays s : ℚ) - calcLopDays s
      - (calcInactiveDays s (calcWorkingDays s) : ℚ)) = _
  rw [hz]
  norm_num

/-- Witness for C10: a concrete employee relieved on 2024-06-15 inside
the June 2024 period who joined 2024-01-01 gets zero inactive days. -/
theorem inactive_days_zero_witness :
    calcInactiveDays exRelievedState (calcWorkingDays exRelievedState) = 0
    ∧ getPaymentDays exRelievedState
      = max 0 ((calcWorkingDays exRelievedState : ℚ) - calcLopDays exRelievedState) :=
  inactive_days_zero_when_joined_before_start exRelievedState ⟨2024, 1, 1⟩ rfl (by decide)

/-- C6 counterexample: sync_today_attendance wraps its body with a
status/message envelope, not the success/error envelope the claim
asserts for it. -/
theorem sync_today_error_envelope_cex :
    syncTodayAttendanceHandler (Except.error "boom")
      = [("status", RVal.s "error"), ("message", RVal.s "boom")]
    ∧ syncTodayAttendanceHandler (Except.error "boom")
      ≠ [("success", RVal.b false), ("error", RVal.s "boom")] :=
  ⟨rfl, by decide⟩

/-- C6 amended: the api.py endpoints clock_in, clock_out, apply_leave,
cancel_leave and create_issue return success False with the error string
on an exception, while sync_today_attendance and sync_date_range return
status error with the message string. -/
theorem endpoint_error_envelopes (e : String) :
    clockInHandler (Except.error e)
      = [("success", RVal.b false), ("error", RVal.s e)]
    ∧ clockOutHandler (Except.error e)
      = [("success", RVal.b false), ("error", RVal.s e)]
    ∧ applyLeaveHandler (Except.error e)
      = [("success", RVal.b false), ("error", RVal.s e)]
    ∧ cancelLeaveHandler (Except.error e)
      = [("success", RVal.b false), ("error", RVal.s e)]
    ∧ createIssueHandler (Except.error e)
      = [("success", RVal.b false), ("error", RVal.s e)]
    ∧ syncTodayAttendanceHandler (Except.error e)
      = [("status", RVal.s "error"), ("message", RVal.s e)]
    ∧ syncDateRangeHandler (Except.error e)
      = [("status", RVal.s "error"), ("message", RVal.s e)] :=
  ⟨rfl, rfl, rfl, rfl, rfl, rfl, rfl⟩

/-- C5 counterexample: at a loaded state with gross pay 30000 the claim
requires a Professional Tax deduction of 200 in the calculate_deductions
result, but the result is empty; the statutory helper, which is not
invoked, would have produced exactly that deduction. -/
theorem calculate_deductions_omits_statutory_cex :
    grossPayForDeductions exPayState 30 = 30000
    ∧ calculateDeductions exPayState 30 = []
    ∧ calcStatutoryDeductions exPayState exStatutoryCtx
        (grossPayForDeductions exPayState 30)
      = [⟨"Professional Tax", "PT", 200, "Deduction"⟩] := by
  have hg : grossPayForDeductions exPayState 30 = 30000 := by
    norm_num [grossPayForDeductions, calculateEarnings, calcComponentAmount,
      exPayState, pyRound2, roundHalfEven, List.filterMap]
  refine ⟨hg, rfl, ?_⟩
  rw [hg]
  norm_num [calcStatutoryDeductions, calcProfessionalTax, calcProvidentFund,
    calcESI, getPTAmountByState, isPFApplicable, isESIApplicable,
    exStatutoryCtx, List.reduceOption, List.filterMap]

/-- C5 amended: calculate_deductions returns only the salary-structure
deductions (each entry stems from a structure deduction row); the
statutory computation, which it does not invoke, computes Professional
Tax per the gross-pay slabs when no PT component is configured, Provident
Fund at the configured rate of basic salary when PF is applicable, and
ESI at 0.75 percent of gross pay only when gross pay is at most 21000 and
ESI is applicable. -/
theorem calculate_deductions_structure_only (st : PayState) (pd : ℚ) :
    (∀ item ∈ calculateDeductions st pd, ∃ d ∈ st.deductions,
        item = ⟨d.salary_component, d.abbr,
          calcComponentAmount st d pd (grossPayForDeductions st pd), "Deduction"⟩)
    ∧ (∀ (ctx : StatutoryCtx) (gross_pay : ℚ), ctx.pt_component = none →
        calcProfessionalTax ctx gross_pay =
          if 0 < getPTAmountByState gross_pay then
            some ⟨"Professional Tax", "PT", getPTAmountByState gross_pay, "Deduction"⟩
          else none)
    ∧ (∀ (ctx : StatutoryCtx) (gross_pay : ℚ),
        isPFApplicable ctx = true → 0 < getBasicSalary st →
        calcProvidentFund st ctx gross_pay =
          some ⟨(ctx.pf_component.map Prod.fst).getD "Provident Fund",
                (ctx.pf_component.map Prod.snd).getD "PF",
                pyRound2 (getBasicSalary st * (ctx.pf_rate / 100)), "Deduction"⟩)
    ∧ (∀ (ctx : StatutoryCtx) (gross_pay : ℚ), 21000 < gross_pay →
        calcESI ctx gross_pay = none)
    ∧ (∀ (ctx : StatutoryCtx) (gross_pay : ℚ),
        gross_pay ≤ 21000 → isESIApplicable ctx = true →
        calcESI ctx gross_pay =
          some ⟨(ctx.esi_component.map Prod.fst).getD "ESI",
                (ctx.esi_component.map Prod.snd).getD "ESI",
                pyRound2 (gross_pay * ((3/4) / 100)), "Deduction"⟩) := by
  refine ⟨?_, ?_, ?_, ?_, ?_⟩
  · intro item hitem
    simp only [calculateDeductions, List.mem_filterMap] at hitem
    obtain ⟨d, hd, hfd⟩ := hitem
    refine ⟨d, hd, ?_⟩
    by_cases hpos :
        0 < calcComponentAmount st d pd (grossPayForDeductions st pd)
    · rw [if_pos hpos] at hfd
      exact (Option.some_injective _ hfd).symm
    · rw [if_neg hpos] at hfd
      exact absurd hfd (by simp)
  · intro ctx gross_pay hnone
    simp [calcProfessionalTax, hnone]
  · intro ctx gross_pay happ hbasic
    unfold calcProvidentFund
    rw [happ]
    simp only [Bool.not_true, Bool.false_eq_true, if_false]
    rw [if_neg (not_le.mpr hbasic)]
    cases ctx.pf_component <;> simp
  · intro ctx gross_pay hgt
    unfold calcESI
    rw [if_pos hgt]
  · intro ctx gross_pay hle happ
    unfold calcESI
    rw [if_neg (not_lt.mpr hle), happ]
    simp only [Bool.not_true, Bool.false_eq_true, if_false]
    cases ctx.esi_component <;> simp

/-- Witness for the amended C5: at the concrete state, every deduction
stems from the (empty) structure table, and the uninvoked PF helper with
default applicability returns 12 percent of the 30000 basic. -/
theorem calculate_deductions_structure_only_witness :
    (∀ item ∈ calculateDeductions exPayState 30, ∃ d ∈ exPayState.deductions,
        item = ⟨d.salary_component, d.abbr,
          calcComponentAmount exPayState d 30 (grossPayForDeductions exPayState 30),
          "Deduction"⟩)
    ∧ calcProvidentFund exPayState exStatutoryCtxDefaults 1000
      = some ⟨"Provident Fund", "PF",
          pyRound2 (getBasicSalary exPayState * ((12 : ℚ) / 100)), "Deduction"⟩ := by
  have h := calculate_deductions_structure_only exPayState 30
  have hb : (0 : ℚ) < getBasicSalary exPayState := by
    norm_num [getBasicSalary, exPayState, List.findSome?]
  have h2 := h.2.2.1 exStatutoryCtxDefaults 1000 rfl hb
  exact ⟨h.1, by simpa [exStatutoryCtxDefaults] using h2⟩

/-- The error flag of the row loop is set exactly when a row hit the
generic exception branch. -/
theorem foldl_importStep_error (rows : List RowResult) (acc : ImportAcc) :
    (rows.foldl importStep acc).error
      = (acc.error || rows.any RowResult.isFailure) := by
  induction rows generalizing acc with
  | nil => simp
  | cons r rest ih =>
    cases r <;>
      simp [importStep, RowResult.isFailure, ih, Bool.or_assoc]

/-- The pending changes of the row loop are the initial ones followed by
the changes of the successfully imported rows, in order. -/
theorem foldl_importStep_pending (rows : List RowResult) (acc : ImportAcc) :
    (rows.foldl importStep acc).pending = acc.pending ++ okChanges rows := by
  induction rows generalizing acc with
  | nil => simp [okChanges]
  | cons r rest ih =>
    cases r <;> simp [importStep, okChanges, ih]

/-- C9 counterexample: a file whose second data row fails with an
AttributeError is committed with error False, and the first row's change
persists, although not every processed row succeeded. -/
theorem import_rows_attr_error_cex :
    (importAttendanceRows [] [RowResult.ok "row6", RowResult.attrError]).error = false
    ∧ (importAttendanceRows [] [RowResult.ok "row6", RowResult.attrError]).db
      = ["row6"] :=
  ⟨rfl, rfl⟩

/-- C9 amended: _import_attendance_rows rolls the transaction back (so no
change of the file persists) and returns error True as soon as some row
fails with an exception other than AttributeError; when no row does, it
commits the changes of the successfully imported rows and returns error
False - rows failing with AttributeError are skipped silently and do not
prevent the commit. -/
theorem import_rows_atomicity (db : List String) (rows : List RowResult) :
    ((∃ r ∈ rows, r.isFailure = true) →
      (importAttendanceRows db rows).db = db
      ∧ (importAttendanceRows db rows).error = true)
    ∧ ((∀ r ∈ rows, r.isFailure = false) →
      (importAttendanceRows db rows).db = db ++ okChanges rows
      ∧ (importAttendanceRows db rows).error = false) := by
  constructor
  · intro hex
    have hany : rows.any RowResult.isFailure = true :=
      List.any_eq_true.mpr (by simpa using hex)
    have herr : (rows.foldl importStep ⟨[], [], false⟩).error = true := by
      rw [foldl_importStep_error]
      simp [hany]
    unfold importAttendanceRows
    rw [if_pos herr]
    exact ⟨rfl, rfl⟩
  · intro hall
    have hany : rows.any RowResult.isFailure = false := by
      rw [List.any_eq_false]
      intro r hr
      simp [hall r hr]
    have herr : (rows.foldl importStep ⟨[], [], false⟩).error = false := by
      rw [foldl_importStep_error]
      simp [hany]
    unfold importAttendanceRows
    rw [if_neg (by simp [herr])]
    exact ⟨by rw [foldl_importStep_pending]; simp, rfl⟩

/-- Flat characterization of liveCount on a cons cell. -/
theorem liveCount_cons (r : AttRecord) (l : List AttRecord) :
    liveCount (r :: l) = (if r.docstatus ≠ 2 then 1 else 0) + liveCount l := by
  by_cases h : r.docstatus = 2 <;>
    simp [liveCount, List.filter_cons, h, Nat.add_comm]

/-- liveCount distributes over append. -/
theorem liveCount_append (l1 l2 : List AttRecord) :
    liveCount (l1 ++ l2) = liveCount l1 + liveCount l2 := by
  simp [liveCount, List.filter_append]

/-- A record list without live records consists of cancelled records. -/
theorem all_cancelled_of_liveCount_zero (l : List AttRecord)
    (h : liveCount l = 0) : ∀ r ∈ l, r.docstatus = 2 := by
  intro r hr
  by_contra hne
  have : (List.filter (fun x => x.docstatus != 2) l).length ≠ 0 := by
    have hmem : r ∈ List.filter (fun x => x.docstatus != 2) l :=
      List.mem_filter.mpr ⟨hr, by simpa using hne⟩
    intro hlen
    rw [List.length_eq_zero] at hlen
    simp [hlen] at hmem
  exact this h

/-- The write phase leaves exactly one live record, and it is submitted,
whenever the precondition of at most one live record holds. -/
theorem applyAttendance_single_live (ad : AttendanceData) (recs : List AttRecord)
    (h : liveCount recs ≤ 1) :
    liveCount (applyAttendance ad recs) = 1
    ∧ ∀ r ∈ applyAttendance ad recs, r.docstatus ≠ 2 → r.docstatus = 1 := by
  induction recs with
  | nil =>
    constructor
    · simp [applyAttendance, liveCount]
    · intro r hr
      simp [applyAttendance] at hr
      simp [hr]
  | cons r rest ih =>
    by_cases h2 : r.docstatus = 2
    · have hrec : applyAttendance ad (r :: rest) = r :: applyAttendance ad rest := by
        simp [applyAttendance, h2]
      have hle : liveCount rest ≤ 1 := by
        have := liveCount_cons r rest
        simp [h2] at this
        omega
      obtain ⟨ih1, ih2⟩ := ih hle
      constructor
      · rw [hrec, liveCount_cons, ih1]
        simp [h2]
      · intro x hx hxlive
        rw [hrec] at hx
        rcases List.mem_cons.mp hx with hx | hx
        · subst hx; exact absurd h2 hxlive
        · exact ih2 x hx hxlive
    · have hzero : liveCount rest = 0 := by
        have := liveCount_cons r rest
        simp [h2] at this
        omega
      have hdead := all_cancelled_of_liveCount_zero rest hzero
      by_cases h1 : r.docstatus = 1
      · have hrec : applyAttendance ad (r :: rest)
            = ({ r with docstatus := 2 } :: rest) ++ [⟨1, ad⟩] := by
          simp [applyAttendance, h2, h1]
        constructor
        · rw [hrec, liveCount_append, liveCount_cons, hzero]
          simp [liveCount]
        · intro x hx hxlive
          rw [hrec] at hx
          rcases List.mem_append.mp hx with hx | hx
          · rcases List.mem_cons.mp hx with hx | hx
            · subst hx; simp at hxlive
            · exact absurd (hdead x hx) hxlive
          · simp at hx
            simp [hx]
      · have hrec : applyAttendance ad (r :: rest) = ⟨1, ad⟩ :: rest := by
          simp [applyAttendance, h2, h1]
        constructor
        · rw [hrec, liveCount_cons, hzero]
          simp
        · intro x hx hxlive
          rw [hrec] at hx
          rcases List.mem_cons.mp hx with hx | hx
          · simp [hx]
          · exact absurd (hdead x hx) hxlive

/-- C7: when at most one non-cancelled Attendance record exists for the
employee and date and create_or_update_attendance succeeds (the checkins
contain an IN log), the resulting record list has exactly one
non-cancelled record and that record is submitted. -/
theorem resync_single_live_record (leave : Bool) (shift : String)
    (checkins : List Checkin) (recs recs2 : List AttRecord)
    (hpre : liveCount recs ≤ 1)
    (hrun : createOrUpdateAttendance leave shift checkins recs = some recs2) :
    liveCount recs2 = 1
    ∧ ∀ r ∈ recs2, r.docstatus ≠ 2 → r.docstatus = 1 := by
  unfold createOrUpdateAttendance at hrun
  rw [Option.map_eq_some'] at hrun
  obtain ⟨ad, _, had⟩ := hrun
  rw [← had]
  exact applyAttendance_single_live ad recs hpre

/-- Witness for C7: resyncing a day that already has one submitted record
with a single IN checkin cancels it and leaves exactly one submitted
record. -/
theorem resync_single_live_record_witness :
    liveCount [⟨2, ⟨"Present", 0, 0, none⟩⟩, ⟨1, ⟨"Absent", 0, 0, none⟩⟩] = 1
    ∧ ∀ r ∈ ([⟨2, ⟨"Present", 0, 0, none⟩⟩, ⟨1, ⟨"Absent", 0, 0, none⟩⟩] :
        List AttRecord), r.docstatus ≠ 2 → r.docstatus = 1 :=
  resync_single_live_record false "" [⟨"IN", 0⟩]
    [⟨1, ⟨"Present", 0, 0, none⟩⟩]
    [⟨2, ⟨"Present", 0, 0, none⟩⟩, ⟨1, ⟨"Absent", 0, 0, none⟩⟩]
    (by simp [liveCount])
    (by
      have hdata : computeAttendanceData false "" [⟨"IN", 0⟩]
          = some ⟨"Absent", 0, 0, none⟩ := by
        simp [computeAttendanceData, minByTime, determineAttendanceStatus,
          pyRound2, roundHalfEven]
        norm_num
      unfold createOrUpdateAttendance
      rw [hdata]
      simp [applyAttendance])

/-- If no element satisfies the predicate, the count is zero. -/
theorem countP_zero_of_any_false (p : Checkin → Bool) (l : List Checkin)
    (h : l.any p = false) : l.countP p = 0 :=
  List.countP_eq_zero.mpr (List.any_eq_false.mp h)

/-- C8: under the punch endpoint, a state with at most one IN and one OUT
keeps at most one of each after a successful punch; a day without an IN
records an IN; a day with both an IN and an OUT is rejected with the
already-clocked message; a day with an IN and no OUT either rejects the
punch when more than 12 hours have passed since the earliest IN, or
records an OUT. -/
theorem punch_spec (st : List Checkin) (ts : ℚ)
    (hin : countIn st ≤ 1) (hout : countOut st ≤ 1) :
    (∀ st2 lt, punch st ts = Except.ok (st2, lt) →
      countIn st2 ≤ 1 ∧ countOut st2 ≤ 1)
    ∧ (st.any (fun c => c.log_type == "IN") = false →
        punch st ts = Except.ok (st ++ [⟨"IN", ts⟩], "IN"))
    ∧ (st.any (fun c => c.log_type == "IN") = true →
        st.any (fun c => c.log_type == "OUT") = true →
        punch st ts = Except.error "You have already clocked in and out today")
    ∧ (∀ c cs, st.filter (fun x => x.log_type == "IN") = c :: cs →
        st.any (fun x => x.log_type == "OUT") = false →
        (12 < (ts - (minByTime c cs).time) / 3600 →
          punch st ts = Except.error "Shift exceeded 12 hours. Please contact HR.")
        ∧ ((ts - (minByTime c cs).time) / 3600 ≤ 12 →
          punch st ts = Except.ok (st ++ [⟨"OUT", ts⟩], "OUT"))) := by
  refine ⟨?_, ?_, ?_, ?_⟩
  · intro st2 lt hok
    unfold punch at hok
    by_cases hio : (st.any (fun c => c.log_type == "IN")
        && st.any (fun c => c.log_type == "OUT")) = true
    · rw [if_pos hio] at hok
      exact absurd hok (by simp)
    · rw [if_neg hio] at hok
      by_cases hni : st.any (fun c => c.log_type == "IN") = false
      · rw [if_pos (by simp [hni])] at hok
        rw [Except.ok.injEq, Prod.mk.injEq] at hok
        obtain ⟨hst, -⟩ := hok
        subst hst
        constructor
        · have hz : countIn st = 0 := countP_zero_of_any_false _ st hni
          simp only [countIn, List.countP_append] at hz ⊢
          simp [hz, List.countP_cons]
        · simp only [countOut, List.countP_append] at hout ⊢
          simpa [List.countP_cons] using hout
      · rw [if_neg (by simpa using hni)] at hok
        have hin' : st.any (fun c => c.log_type == "IN") = true := by
          simpa using hni
        have hout' : st.any (fun c => c.log_type == "OUT") = false := by
          by_contra hh
          have hh' : st.any (fun c => c.log_type == "OUT") = true := by
            simpa using hh
          exact hio (by simp [hin', hh'])
        cases hfil : st.filter (fun x => x.log_type == "IN") with
        | nil => rw [hfil] at hok; exact absurd hok (by simp)
        | cons c cs =>
          rw [hfil] at hok
          dsimp only at hok
          split at hok
          · exact absurd hok (by simp)
          · rw [Except.ok.injEq, Prod.mk.injEq] at hok
            obtain ⟨hst, -⟩ := hok
            subst hst
            constructor
            · simp only [countIn, List.countP_append] at hin ⊢
              simpa [List.countP_cons] using hin
            · have hz : countOut st = 0 := countP_zero_of_any_false _ st hout'
              simp only [countOut, List.countP_append] at hz ⊢
              simp [hz, List.countP_cons]
  · intro hni
    unfold punch
    rw [if_neg (by simp [hni]), if_pos (by simp [hni])]
  · intro hi ho
    unfold punch
    rw [if_pos (by simp [hi, ho])]
  · intro c cs hfil hout'
    have hin' : st.any (fun c => c.log_type == "IN") = true := by
      have hc : c ∈ st.filter (fun x => x.log_type == "IN") := by
        rw [hfil]; exact List.mem_cons_self c cs
      have hm := List.mem_filter.mp hc
      exact List.any_eq_true.mpr ⟨c, hm.1, hm.2⟩
    unfold punch
    rw [if_neg (by simp [hin', hout']), if_neg (by simp [hin']), hfil]
    dsimp only
    constructor
    · intro h12
      rw [if_pos h12]
    · intro h12
      rw [if_neg (by simpa using not_lt.mpr h12)]

/-- Python min by time returns an element of the list. -/
theorem minByTime_mem (c : Checkin) (cs : List Checkin) :
    minByTime c cs ∈ c :: cs := by
  induction cs generalizing c with
  | nil => simp [minByTime]
  | cons b cs ih =>
    by_cases hb : b.time < c.time
    · have h1 : minByTime c (b :: cs) = minByTime b cs := by
        simp [minByTime, List.foldl_cons, hb]
      rw [h1]
      rcases List.mem_cons.mp (ih b) with h | h
      · rw [h]
        exact List.mem_cons_of_mem _ (List.mem_cons_self b cs)
      · exact List.mem_cons_of_mem _ (List.mem_cons_of_mem _ h)
    · have h1 : minByTime c (b :: cs) = minByTime c cs := by
        simp [minByTime, List.foldl_cons, hb]
      rw [h1]
      rcases List.mem_cons.mp (ih c) with h | h
      · rw [h]
        exact List.mem_cons_self c (b :: cs)
      · exact List.mem_cons_of_mem _ (List.mem_cons_of_mem _ h)

/-- Python min by time is a lower bound of the times. -/
theorem minByTime_le (c : Checkin) (cs : List Checkin) :
    ∀ x ∈ c :: cs, (minByTime c cs).time ≤ x.time := by
  induction cs generalizing c with
  | nil =>
    intro x hx
    rcases List.mem_cons.mp hx with h | h
    · subst h; exact le_refl _
    · simp at h
  | cons b cs ih =>
    intro x hx
    by_cases hb : b.time < c.time
    · have h1 : minByTime c (b :: cs) = minByTime b cs := by
        simp [minByTime, List.foldl_cons, hb]
      rw [h1]
      have hself : (minByTime b cs).time ≤ b.time :=
        ih b b (List.mem_cons_self _ _)
      rcases List.mem_cons.mp hx with hxc | hx2
      · subst hxc
        exact le_of_lt (lt_of_le_of_lt hself hb)
      · rcases List.mem_cons.mp hx2 with hxb | hxcs
        · subst hxb
          exact hself
        · exact ih b x (List.mem_cons_of_mem _ hxcs)
    · have h1 : minByTime c (b :: cs) = minByTime c cs := by
        simp [minByTime, List.foldl_cons, hb]
      rw [h1]
      have hself : (minByTime c cs).time ≤ c.time :=
        ih c c (List.mem_cons_self _ _)
      rcases List.mem_cons.mp hx with hxc | hx2
      · subst hxc
        exact hself
      · rcases List.mem_cons.mp hx2 with hxb | hxcs
        · subst hxb
          exact le_trans hself (not_lt.mp hb)
        · exact ih c x (List.mem_cons_of_mem _ hxcs)

/-- Python max by time returns an element of the list. -/
theorem maxByTime_mem (c : Checkin) (cs : List Checkin) :
    maxByTime c cs ∈ c :: cs := by
  induction cs generalizing c with
  | nil => simp [maxByTime]
  | cons b cs ih =>
    by_cases hb : c.time < b.time
    · have h1 : maxByTime c (b :: cs) = maxByTime b cs := by
        simp [maxByTime, List.foldl_cons, hb]
      rw [h1]
      rcases List.mem_cons.mp (ih b) with h | h
      · rw [h]
        exact List.mem_cons_of_mem _ (List.mem_cons_self b cs)
      · exact List.mem_cons_of_mem _ (List.mem_cons_of_mem _ h)
    · have h1 : maxByTime c (b :: cs) = maxByTime c cs := by
        simp [maxByTime, List.foldl_cons, hb]
      rw [h1]
      rcases List.mem_cons.mp (ih c) with h | h
      · rw [h]
        exact List.mem_cons_self c (b :: cs)
      · exact List.mem_cons_of_mem _ (List.mem_cons_of_mem _ h)

/-- Python max by time is an upper bound of the times. -/
theorem maxByTime_ge (c : Checkin) (cs : List Checkin) :
    ∀ x ∈ c :: cs, x.time ≤ (maxByTime c cs).time := by
  induction cs generalizing c with
  | nil =>
    intro x hx
    rcases List.mem_cons.mp hx with h | h
    · subst h; exact le_refl _
    · simp at h
  | cons b cs ih =>
    intro x hx
    by_cases hb : c.time < b.time
    · have h1 : maxByTime c (b :: cs) = maxByTime b cs := by
        simp [maxByTime, List.foldl_cons, hb]
      rw [h1]
      have hself : b.time ≤ (maxByTime b cs).time :=
        ih b b (List.mem_cons_self _ _)
      rcases List.mem_cons.mp hx with hxc | hx2
      · subst hxc
        exact le_trans (le_of_lt hb) hself
      · rcases List.mem_cons.mp hx2 with hxb | hxcs
        · subst hxb
          exact hself
        · exact ih b x (List.mem_cons_of_mem _ hxcs)
    · have h1 : maxByTime c (b :: cs) = maxByTime c cs := by
        simp [maxByTime, List.foldl_cons, hb]
      rw [h1]
      have hself : c.time ≤ (maxByTime c cs).time :=
        ih c c (List.mem_cons_self _ _)
      rcases List.mem_cons.mp hx with hxc | hx2
      · subst hxc
        exact hself
      · rcases List.mem_cons.mp hx2 with hxb | hxcs
        · subst hxb
          exact le_trans (not_lt.mp hb) hself
        · exact ih c x (List.mem_cons_of_mem _ hxcs)

/-- Rounding zero hours stores zero. -/
theorem pyRound2_zero : pyRound2 0 = 0 := by
  norm_num [pyRound2, roundHalfEven]

/-- C3: with no IN checkin, no attendance is computed or written;
otherwise the computed attendance carries the earliest IN time as
in_time, the latest OUT time as out_time (none with working hours 0 when
no OUT exists), and working hours equal to the OUT-minus-IN difference in
hours rounded to two decimals. -/
theorem attendance_pairing (leave : Bool) (shift : String)
    (checkins : List Checkin) :
    ((∀ c ∈ checkins, c.log_type ≠ "IN") →
      computeAttendanceData leave shift checkins = none
      ∧ ∀ recs, createOrUpdateAttendance leave shift checkins recs = none)
    ∧ (∀ d, computeAttendanceData leave shift checkins = some d →
        ((∃ c ∈ checkins, c.log_type = "IN" ∧ c.time = d.in_time)
        ∧ (∀ c ∈ checkins, c.log_type = "IN" → d.in_time ≤ c.time)
        ∧ (d.out_time = none →
            d.working_hours = 0 ∧ ∀ c ∈ checkins, c.log_type ≠ "OUT")
        ∧ (∀ t, d.out_time = some t →
            (∃ c ∈ checkins, c.log_type = "OUT" ∧ c.time = t)
            ∧ (∀ c ∈ checkins, c.log_type = "OUT" → c.time ≤ t)
            ∧ d.working_hours = pyRound2 ((t - d.in_time) / 3600)))) := by
  constructor
  · intro hno
    have hfil : checkins.filter (fun c => c.log_type == "IN") = [] :=
      List.filter_eq_nil_iff.mpr (fun c hc => by simp [hno c hc])
    have hnone : computeAttendanceData leave shift checkins = none := by
      unfold computeAttendanceData
      rw [hfil]
    refine ⟨hnone, fun recs => ?_⟩
    unfold createOrUpdateAttendance
    rw [hnone]
    rfl
  · intro d hd
    unfold computeAttendanceData at hd
    cases hfil : checkins.filter (fun c => c.log_type == "IN") with
    | nil => rw [hfil] at hd; exact absurd hd (by simp)
    | cons c rest =>
      rw [hfil] at hd
      dsimp only at hd
      have hmin_mem : minByTime c rest ∈ checkins ∧
          (minByTime c rest).log_type = "IN" := by
        have h := minByTime_mem c rest
        rw [← hfil] at h
        have h2 := List.mem_filter.mp h
        exact ⟨h2.1, by simpa using h2.2⟩
      have hmin_le : ∀ x ∈ checkins, x.log_type = "IN" →
          (minByTime c rest).time ≤ x.time := by
        intro x hx hxin
        have hxf : x ∈ checkins.filter (fun c => c.log_type == "IN") :=
          List.mem_filter.mpr ⟨hx, by simp [hxin]⟩
        rw [hfil] at hxf
        exact minByTime_le c rest x hxf
      cases hofil : checkins.filter (fun c => c.log_type == "OUT") with
      | nil =>
        rw [hofil] at hd
        dsimp only at hd
        rw [Option.some.injEq] at hd
        subst hd
        refine ⟨⟨minByTime c rest, hmin_mem.1, hmin_mem.2, rfl⟩, hmin_le, ?_, ?_⟩
        · intro _
          refine ⟨pyRound2_zero, fun x hx hxout => ?_⟩
          have hxf : x ∈ checkins.filter (fun c => c.log_type == "OUT") :=
            List.mem_filter.mpr ⟨hx, by simp [hxout]⟩
          rw [hofil] at hxf
          simp at hxf
        · intro t ht
          exact absurd ht (by simp)
      | cons o orest =>
        rw [hofil] at hd
        dsimp only at hd
        rw [Option.some.injEq] at hd
        subst hd
        have hmax_mem : maxByTime o orest ∈ checkins ∧
            (maxByTime o orest).log_type = "OUT" := by
          have h := maxByTime_mem o orest
          rw [← hofil] at h
          have h2 := List.mem_filter.mp h
          exact ⟨h2.1, by simpa using h2.2⟩
        refine ⟨⟨minByTime c rest, hmin_mem.1, hmin_mem.2, rfl⟩, hmin_le, ?_, ?_⟩
        · intro h
          exact absurd h (by simp)
        · intro t ht
          rw [show Option.map Checkin.time (some (maxByTime o orest))
              = some (maxByTime o orest).time from rfl,
            Option.some.injEq] at ht
          subst ht
          refine ⟨⟨maxByTime o orest, hmax_mem.1, hmax_mem.2, rfl⟩, ?_, rfl⟩
          intro x hx hxout
          have hxf : x ∈ checkins.filter (fun c => c.log_type == "OUT") :=
            List.mem_filter.mpr ⟨hx, by simp [hxout]⟩
          rw [hofil] at hxf
          exact maxByTime_ge o orest x hxf

/-- Witness for C3: a day with two INs and one OUT pairs the earlier IN
at second 3600 with the OUT at second 32400 for 8.0 working hours; an
OUT-only day yields no attendance. -/
theorem attendance_pairing_witness :
    computeAttendanceData false "" [⟨"OUT", 100⟩] = none
    ∧ (∃ c ∈ ([⟨"IN", 3600⟩, ⟨"OUT", 32400⟩, ⟨"IN", 7200⟩] : List Checkin),
        c.log_type = "IN" ∧ c.time = (3600 : ℚ)) := by
  constructor
  · exact ((attendance_pairing false "" [⟨"OUT", 100⟩]).1 (by decide)).1
  · have hdata : computeAttendanceData false ""
        [⟨"IN", 3600⟩, ⟨"OUT", 32400⟩, ⟨"IN", 7200⟩]
        = some ⟨"Present", 8, 3600, some 32400⟩ := by
      simp [computeAttendanceData, minByTime, maxByTime,
        determineAttendanceStatus, pyRound2, roundHalfEven]
      norm_num
    have h := ((attendance_pairing false ""
      [⟨"IN", 3600⟩, ⟨"OUT", 32400⟩, ⟨"IN", 7200⟩]).2 _ hdata).1
    simpa using h

/-- Witness for C8: an employee who clocked in at second 0 and punches at
second 3600 gets an OUT recorded. -/
theorem punch_spec_witness :
    punch [⟨"IN", 0⟩] 3600
      = Except.ok ([⟨"IN", 0⟩, ⟨"OUT", (3600 : ℚ)⟩], "OUT") := by
  have h := (punch_spec [⟨"IN", 0⟩] 3600 (by simp [countIn])
      (by simp [countOut])).2.2.2 ⟨"IN", 0⟩ [] (by simp [List.filter]) (by simp)
  have h2 := h.2 (by norm_num [minByTime])
  simpa using h2

/-- One step of the get_lop_summary loop adds the key weight times the
group count to the lop_days accumulator. -/
theorem lopSummaryStep_fst (lop_types : List String) (acc : ℚ × ℚ)
    (g : (String × String) × Nat) :
    (lopSummaryStep lop_types acc g).1
      = acc.1 + lopKeyWeight lop_types g.1 * (g.2 : ℚ) := by
  obtain ⟨⟨status, lt⟩, count⟩ := g
  unfold lopSummaryStep lopKeyWeight
  dsimp only
  by_cases hA : status = "Absent"
  · simp [hA]
  · by_cases hO : status = "On Leave" ∧ lt ∈ lop_types
    · obtain ⟨hO1, hO2⟩ := hO
      simp [hO1, hO2]
    · by_cases hH : status = "Half Day"
      · by_cases hM : lt ∈ lop_types
        · simp [hH, hM]
        · simp [hH, hM]
      · simp [hA, hO, hH]

/-- The lop_days accumulator of get_lop_summary sums the key weights
times the group counts. -/
theorem lopSummary_fold_fst (lop_types : List String)
    (gs : List ((String × String) × Nat)) :
    ∀ acc : ℚ × ℚ,
      (gs.foldl (lopSummaryStep lop_types) acc).1
        = acc.1 + (gs.map (fun g => lopKeyWeight lop_types g.1 * (g.2 : ℚ))).sum := by
  induction gs with
  | nil => intro acc; simp
  | cons g gs ih =>
    intro acc
    simp only [List.foldl_cons, List.map_cons, List.sum_cons]
    rw [ih, lopSummaryStep_fst]
    ring

/-- Summing an indicator of one key over a duplicate-free key list. -/
theorem sum_map_ite_single (w : String × String → ℚ) (a : String × String) :
    ∀ ks : List (String × String), ks.Nodup → a ∈ ks →
      (ks.map (fun k => if a = k then w k else 0)).sum = w a := by
  intro ks
  induction ks with
  | nil => intro _ h; simp at h
  | cons k ks ih =>
    intro hnd hmem
    simp only [List.map_cons, List.sum_cons]
    by_cases hak : a = k
    · subst hak
      have hnm : a ∉ ks := (List.nodup_cons.mp hnd).1
      have hz : (ks.map (fun k => if a = k then w k else 0)).sum = 0 := by
        apply List.sum_eq_zero
        intro x hx
        rw [List.mem_map] at hx
        obtain ⟨b, hb, hbx⟩ := hx
        have hne : a ≠ b := fun hh => hnm (by rw [hh]; exact hb)
        rw [← hbx]
        rw [if_neg hne]
      simp [hz]
    · rcases List.mem_cons.mp hmem with h | h
      · exact absurd h hak
      · rw [if_neg hak, ih (List.nodup_cons.mp hnd).2 h]
        simp

/-- Sums of pointwise sums split. -/
theorem list_sum_map_add {α : Type} (f g : α → ℚ) (l : List α) :
    (l.map (fun x => f x + g x)).sum = (l.map f).sum + (l.map g).sum := by
  induction l with
  | nil => simp
  | cons x l ih => simp [ih]; ring

/-- A weighted sum over the distinct keys with their counts equals the
row-wise weighted sum. -/
theorem sum_groups_eq_sum_rows (w : String × String → ℚ)
    (ks : List (String × String)) (hnd : ks.Nodup) :
    ∀ rows : List AttRow, (∀ r ∈ rows, attKey r ∈ ks) →
      (ks.map (fun k => w k
          * (rows.countP (fun r => attKey r = k) : ℚ))).sum
        = (rows.map (fun r => w (attKey r))).sum := by
  intro rows
  induction rows with
  | nil => intro _; simp
  | cons r rows ih =>
    intro hall
    have hmem : attKey r ∈ ks := hall r (List.mem_cons_self _ _)
    have ihh := ih (fun x hx => hall x (List.mem_cons_of_mem _ hx))
    have hsplit : (ks.map (fun k => w k
        * (((r :: rows).countP (fun x => attKey x = k)) : ℚ))).sum
        = (ks.map (fun k => (w k * ((rows.countP (fun x => attKey x = k)) : ℚ))
            + (if attKey r = k then w k else 0))).sum := by
      apply congrArg List.sum
      apply List.map_congr_left
      intro k hk
      rw [List.countP_cons]
      by_cases h : attKey r = k
      · simp [h]
        ring
      · simp [h]
    rw [hsplit, list_sum_map_add
      (fun k => w k * ((rows.countP (fun x => attKey x = k)) : ℚ))
      (fun k => if attKey r = k then w k else 0) ks]
    rw [ihh, sum_map_ite_single w (attKey r) ks hnd hmem]
    simp [add_comm]

/-- The lop_days accumulator of the calculator loop adds the row weight
of every attendance row. -/
theorem attTotals_fold_lop (lop_types : List String) (rows : List AttRow) :
    ∀ t : AttTotals,
      (rows.foldl (attStep lop_types) t).lop_days
        = t.lop_days + (rows.map (lopRowWeight lop_types)).sum := by
  induction rows with
  | nil => intro t; simp
  | cons r rows ih =>
    intro t
    simp only [List.foldl_cons, List.map_cons, List.sum_cons]
    rw [ih]
    have hstep : (attStep lop_types t r).lop_days
        = t.lop_days + lopRowWeight lop_types r := by
      unfold attStep lopRowWeight
      by_cases hP : r.status = "Present"
      · simp [hP]
      · by_cases hH : r.status = "Half Day"
        · by_cases hM : r.leave_type ≠ "" ∧ r.leave_type ∈ lop_types
          · simp [hH, hM, hP]
          · simp [hH, hM, hP]
        · by_cases hO : r.status = "On Leave"
          · by_cases hM : r.leave_type ≠ "" ∧ r.leave_type ∈ lop_types
            · simp [hO, hM, hP, hH]
            · simp [hO, hM, hP, hH]
          · by_cases hA : r.status = "Absent"
            · simp [hA, hP, hH, hO]
            · simp [hA, hP, hH, hO]
    rw [hstep]
    ring

/-- With no empty leave-type name among the LOP leave types, the group
weight of a row key equals the calculator row weight. -/
theorem lopKeyWeight_eq_rowWeight (lop_types : List String)
    (h : ("" : String) ∉ lop_types) (r : AttRow) :
    lopKeyWeight lop_types (attKey r) = lopRowWeight lop_types r := by
  unfold lopKeyWeight lopRowWeight attKey
  dsimp only
  by_cases hM : r.leave_type ∈ lop_types
  · have hne : r.leave_type ≠ "" := fun he => h (he ▸ hM)
    simp [hM, hne]
  · simp [hM]

/-- Row-wise weighted LOP sum in closed countP form, with no empty
leave-type name among the LOP leave types. -/
theorem sum_rowWeight_closed (lop_types : List String)
    (h : ("" : String) ∉ lop_types) (rows : List AttRow) :
    (rows.map (lopRowWeight lop_types)).sum
      = (rows.countP (fun r => r.status == "Absent") : ℚ)
        + (rows.countP (fun r => r.status == "On Leave"
            && lop_types.contains r.leave_type) : ℚ)
        + (1/2) * (rows.countP (fun r => r.status == "Half Day"
            && lop_types.contains r.leave_type) : ℚ) := by
  induction rows with
  | nil => simp
  | cons r rows ih =>
    have hw : lopRowWeight lop_types r
        = (if r.status == "Absent" then (1 : ℚ) else 0)
          + (if r.status == "On Leave" && lop_types.contains r.leave_type
              then (1 : ℚ) else 0)
          + (1/2) * (if r.status == "Half Day" && lop_types.contains r.leave_type
              then (1 : ℚ) else 0) := by
      unfold lopRowWeight
      by_cases hA : r.status = "Absent"
      · simp [hA]
      · by_cases hO : r.status = "On Leave"
        · by_cases hM : r.leave_type ∈ lop_types
          · have hne : r.leave_type ≠ "" := fun he => h (he ▸ hM)
            simp [hO, hM, hne, hA]
          · simp [hO, hM, hA]
        · by_cases hH : r.status = "Half Day"
          · by_cases hM : r.leave_type ∈ lop_types
            · have hne : r.leave_type ≠ "" := fun he => h (he ▸ hM)
              simp [hH, hM, hne, hA, hO]
            · simp [hH, hM, hA, hO]
          · simp [hA, hO, hH]
    simp only [List.map_cons, List.sum_cons, List.countP_cons]
    rw [hw, ih]
    push_cast
    ring

/-- C4: the calculator lop_days counts one per Absent row, one per
On-Leave row with an LWP leave type, and one half per Half-Day row with
an LWP leave type; get_lop_summary computes the same total from the
grouped rows (no LWP leave type has an empty name). -/
theorem lop_days_agreement (lop_types : List String) (rows : List AttRow)
    (h : ("" : String) ∉ lop_types) :
    (attTotals lop_types rows).lop_days
      = (rows.countP (fun r => r.status == "Absent") : ℚ)
        + (rows.countP (fun r => r.status == "On Leave"
            && lop_types.contains r.leave_type) : ℚ)
        + (1/2) * (rows.countP (fun r => r.status == "Half Day"
            && lop_types.contains r.leave_type) : ℚ)
    ∧ (getLopSummary lop_types rows).1 = (attTotals lop_types rows).lop_days := by
  have hrow : (attTotals lop_types rows).lop_days
      = (rows.map (lopRowWeight lop_types)).sum := by
    unfold attTotals
    rw [attTotals_fold_lop]
    simp
  constructor
  · rw [hrow]
    exact sum_rowWeight_closed lop_types h rows
  · unfold getLopSummary
    rw [lopSummary_fold_fst]
    have hmapmap : ((attGroupKeys rows).map (fun k => (k, attGroupCount rows k))).map
        (fun g => lopKeyWeight lop_types g.1 * (g.2 : ℚ))
        = (attGroupKeys rows).map
            (fun k => lopKeyWeight lop_types k
              * ((rows.countP (fun r => attKey r = k)) : ℚ)) := by
      rw [List.map_map]
      apply List.map_congr_left
      intro k hk
      rfl
    rw [hmapmap]
    have hnd : (attGroupKeys rows).Nodup := List.nodup_dedup _
    have hall : ∀ r ∈ rows, attKey r ∈ attGroupKeys rows := by
      intro r hr
      exact List.mem_dedup.mpr (List.mem_map_of_mem attKey hr)
    rw [sum_groups_eq_sum_rows (lopKeyWeight lop_types) (attGroupKeys rows) hnd rows hall]
    rw [hrow]
    have hcong : rows.map (fun r => lopKeyWeight lop_types (attKey r))
        = rows.map (lopRowWeight lop_types) := by
      apply List.map_congr_left
      intro r hr
      exact lopKeyWeight_eq_rowWeight lop_types h r
    rw [hcong]
    simp

/-- Witness for C4: one Absent row, one LWP leave row, one LWP half day
and one Present row give 2.5 LOP days in both computations. -/
theorem lop_days_agreement_witness :
    (attTotals ["LWP"] [⟨"Absent", ""⟩, ⟨"On Leave", "LWP"⟩,
        ⟨"Half Day", "LWP"⟩, ⟨"Present", ""⟩]).lop_days
      = (([⟨"Absent", ""⟩, ⟨"On Leave", "LWP"⟩, ⟨"Half Day", "LWP"⟩,
          ⟨"Present", ""⟩] : List AttRow).countP
            (fun r => r.status == "Absent") : ℚ)
        + (([⟨"Absent", ""⟩, ⟨"On Leave", "LWP"⟩, ⟨"Half Day", "LWP"⟩,
            ⟨"Present", ""⟩] : List AttRow).countP
              (fun r => r.status == "On Leave"
                && (["LWP"] : List String).contains r.leave_type) : ℚ)
        + (1/2) * (([⟨"Absent", ""⟩, ⟨"On Leave", "LWP"⟩, ⟨"Half Day", "LWP"⟩,
            ⟨"Present", ""⟩] : List AttRow).countP
              (fun r => r.status == "Half Day"
                && (["LWP"] : List String).contains r.leave_type) : ℚ)
    ∧ (getLopSummary ["LWP"] [⟨"Absent", ""⟩, ⟨"On Leave", "LWP"⟩,
        ⟨"Half Day", "LWP"⟩, ⟨"Present", ""⟩]).1
      = (attTotals ["LWP"] [⟨"Absent", ""⟩, ⟨"On Leave", "LWP"⟩,
          ⟨"Half Day", "LWP"⟩, ⟨"Present", ""⟩]).lop_days :=
  lop_days_agreement ["LWP"]
    [⟨"Absent", ""⟩, ⟨"On Leave", "LWP"⟩, ⟨"Half Day", "LWP"⟩, ⟨"Present", ""⟩]
    (by decide)

/-- Witness for the amended C9: a concrete file with one good row and one
generic failure is rolled back with error True. -/
theorem import_rows_atomicity_witness :
    (importAttendanceRows ["x"] [RowResult.ok "a", RowResult.failure "bad"]).db = ["x"]
    ∧ (importAttendanceRows ["x"] [RowResult.ok "a", RowResult.failure "bad"]).error
      = true :=
  (import_rows_atomicity ["x"] [RowResult.ok "a", RowResult.failure "bad"]).1
    ⟨RowResult.failure "bad", by decide, rfl⟩

end Arijentek
